import Mathlib

/-!
Verification of the TT2 launch-detector (src/detector.py, src/app.py).

The detector is embedded shallowly: the per-frame pipeline of `detector`
(motion calibration, hot classification, velocity smoothing, the launch
state machine and the event log) is translated into pure Lean functions
over rational timestamps and pixel counts.  Machine floats of the source
are modelled as rationals; Python truthiness of a float timestamp is
translated explicitly (`ts ≠ 0`).
-/

-- Batteries marks rational arithmetic `irreducible`, which blocks
-- `decide` on closed rational facts; restore the default reducibility
-- for this file so concrete runs of the model evaluate.
attribute [local semireducible] Rat.add Rat.sub Rat.mul Rat.inv Rat.ofScientific

/-- Outcome column of the `launches` table (spec section 6 allows
`success | rollback | incomplete`; the detector writes the first two). -/
inductive Outcome
  | success
  | rollback
  | incomplete
deriving DecidableEq

/-- The six sub-rectangles of the ROI dictionary of src/detector.py
(lines 14-21): floor split left/right, crest split high/low, verify
split left/right. -/
inductive Region
  | bot_L
  | bot_R
  | top_high
  | top_low
  | verify_L
  | verify_R
deriving DecidableEq

/-- The iteration order of the ROI dictionary. -/
def regions : List Region :=
  [Region.bot_L, Region.bot_R, Region.top_high, Region.top_low,
   Region.verify_L, Region.verify_R]

theorem mem_regions (k : Region) : k ∈ regions := by
  cases k <;> simp [regions]

/-- FSM states (src/detector.py line 112-113). -/
inductive S
  | IDLE
  | ASC1
  | RBACK_DECEL
  | WAIT
  | ASC2
  | VERIFY
deriving DecidableEq

-- ── constants (src/detector.py lines 23-42) ──
def BASE_FRAMES : ℕ := 60
def SIGMA_BOT : ℚ := 10
def SIGMA_TOP : ℚ := 8
def SIGMA_VERIFY : ℚ := 6
def ARM_DELAY : ℚ := 3
def VERIFY_WINDOW : ℚ := 8
def AUTO_SUCCESS : ℚ := 10
def ASC2_GRACE_PERIOD : ℚ := 6
def ROLLBACK_CONFIRM_FRAMES : ℕ := 25
def ROLLBACK_VELOCITY_THRESHOLD : ℚ := 6
def VERIFY_ROLLBACK_VELOCITY : ℚ := 7
def UP_FAST : ℚ := -1
def DOWN_FAST : ℚ := 1
def VELOCITY_SMOOTHING : ℕ := 12
def RECONNECT_GRACE_PERIOD : ℚ := 60
def MIN_EVENT_INTERVAL : ℚ := 81

/-- Width of ROI_VERIFY (line 8). -/
def wv : ℚ := 30
/-- Height of ROI_VERIFY (line 8). -/
def hv : ℚ := 18

-- ── EventStore (the `launches` table and `log_event`, lines 59-76) ──

/-- `SELECT MAX(ts) FROM launches WHERE outcome = ?` over the event log
(held newest-first; MAX is order independent). -/
def lastTs (log : List (ℚ × Outcome)) (result : Outcome) : Option ℚ :=
  log.foldl
    (fun acc e =>
      if e.2 = result then
        match acc with
        | none => some e.1
        | some m => some (max m e.1)
      else acc)
    none

/-- `log_event` (src/detector.py lines 67-76): look up the newest
timestamp of the same outcome; the write is suppressed when that
timestamp is truthy (nonzero) and less than `MIN_EVENT_INTERVAL` old;
otherwise a row is appended.  Returns (committed, new log).  The
Python truthiness test `if last_ts and ...` is translated as
`ts ≠ 0 ∧ ...`. -/
def log_event (log : List (ℚ × Outcome)) (result : Outcome) (now : ℚ) :
    Bool × List (ℚ × Outcome) :=
  match lastTs log result with
  | some ts =>
      if ts ≠ 0 ∧ now - ts < MIN_EVENT_INTERVAL then (false, log)
      else (true, (now, result) :: log)
  | none => (true, (now, result) :: log)

/-- Modelled from the spec: `amend_last_rollback_to_success()` is named
in spec section 4.4 but no such function exists under src/ (neither
detector.py nor app.py contains an UPDATE on `launches`).  Following the
spec words: rewrite the outcome of the single most recent `rollback` row
to `success`; no other mutation.  The log is held newest-first, so the
most recent rollback is the first rollback in the list. -/
def amend_last_rollback_to_success :
    List (ℚ × Outcome) → List (ℚ × Outcome)
  | [] => []
  | (ts, Outcome.rollback) :: rest => (ts, Outcome.success) :: rest
  | r :: rest => r :: amend_last_rollback_to_success rest

-- ── VelocityTracker (lines 104-109, 213-219) ──

/-- `smooth_velocity` (src/detector.py lines 104-109): returns 0 when
the history holds fewer than `VELOCITY_SMOOTHING` samples; otherwise
takes the last `VELOCITY_SMOOTHING` samples, keeps the valid
(non-None) ones, and returns the slope between the newest and oldest
valid samples, or 0 when fewer than two are valid or `dt` is zero. -/
def smooth_velocity (hist : List (Option ℚ × ℚ)) : ℚ :=
  if hist.length < VELOCITY_SMOOTHING then 0
  else
    let pts := (hist.drop (hist.length - VELOCITY_SMOOTHING)).filterMap
      (fun p => match p.1 with
        | some y => some (y, p.2)
        | none => none)
    if pts.length < 2 then 0
    else
      match pts.getLast?, pts.head? with
      | some pl, some pf =>
          if pl.2 - pf.2 ≠ 0 then (pl.1 - pf.1) / (pl.2 - pf.2) else 0
      | _, _ => 0

/-- The velocity as the spec words it (section 4.2 / claim C4): the
slope between the newest and oldest valid (non-absent) samples in the
ring, defined as zero if fewer than two valid samples exist.
(Spec-side definition, for comparison against `smooth_velocity`.) -/
def claimed_velocity (hist : List (Option ℚ × ℚ)) : ℚ :=
  let pts := hist.filterMap (fun p => p.1.map (fun y => (y, p.2)))
  if pts.length < 2 then 0
  else
    match pts.getLast?, pts.head? with
    | some pl, some pf => (pl.1 - pf.1) / (pl.2 - pf.2)
    | _, _ => 0

/-- `deque(maxlen=VELOCITY_SMOOTHING)` append. -/
def dequeAppend (h : List (Option ℚ × ℚ)) (x : Option ℚ × ℚ) :
    List (Option ℚ × ℚ) :=
  if h.length < VELOCITY_SMOOTHING then h ++ [x] else h.tail ++ [x]

/-- History push (src/detector.py line 218): a present centroid is
appended with the frame time; a missing centroid carries the previous
sample's position forward; an empty history records an absent sample. -/
def histPush (h : List (Option ℚ × ℚ)) (cy : Option ℚ) (ft : ℚ) :
    List (Option ℚ × ℚ) :=
  match cy with
  | some y => dequeAppend h (some y, ft)
  | none =>
      match h.getLast? with
      | some prev => dequeAppend h (prev.1, ft)
      | none => dequeAppend h (none, ft)

-- ── Detector state (the mutable locals of `detector`, lines 115-133) ──

/-- All per-run mutable state of `detector`: the calibration fields
(`bg` presence, `base` buffers, `thr`, `armed`), the FSM state with its
scratch, the velocity ring, the event log and the bookkeeping times.
`thr` is `Option ℚ` with `none` standing for the initial `math.inf`;
`rback_start` models the function attribute `detector._rback_start`. -/
structure DState where
  bgSet : Bool
  base : Region → List ℚ
  thr : Region → Option ℚ
  armed : Bool
  state : S
  hist : List (Option ℚ × ℚ)
  asc2_start : Option ℚ
  descent_start : Option ℚ
  verify_dead : Option ℚ
  descent_seen : Bool
  pending_id : Bool
  verify_hits : ℕ
  rollback_confirm_count : ℕ
  t_wait : ℚ
  rback_start : Option ℚ
  last_event_time : ℚ
  last_reconnect_time : Option ℚ
  log : List (ℚ × Outcome)

/-- Initial state of a run (lines 116-133, with an empty `launches`
table).  `t_wait` is unassigned in the source until WAIT is entered;
it is given 0 here and is only read in state WAIT (which always sets
it first). -/
def initState : DState :=
  { bgSet := false
    base := fun _ => []
    thr := fun _ => none
    armed := false
    state := S.IDLE
    hist := []
    asc2_start := none
    descent_start := none
    verify_dead := none
    descent_seen := false
    pending_id := false
    verify_hits := 0
    rollback_confirm_count := 0
    t_wait := 0
    rback_start := none
    last_event_time := 0
    last_reconnect_time := none
    log := [] }

-- ── RegionMotionModel (lines 183-201) ──

/-- Mean of a buffer (`m=sum(base[k])/len(base[k])`, line 195). -/
def mean (l : List ℚ) : ℚ := l.sum / l.length

/-- Population variance of a buffer: the radicand of line 196,
`sum((v-m)**2 for v in base[k])/len(base[k])`. -/
def popVar (l : List ℚ) : ℚ :=
  (l.map (fun v => (v - mean l) ^ 2)).sum / l.length

/-- Per-region armed threshold (lines 194-199): crest regions get
`m + SIGMA_TOP*s`, verify regions `min(m + SIGMA_VERIFY*s, wv*hv*0.6)`,
floor regions `m + SIGMA_BOT*s*1.2`, where `s` is `stdFn` applied to
the buffer — the source computes `s` as the real square root of the
population variance; `stdFn` abstracts that single non-rational step. -/
def armThr (stdFn : List ℚ → ℚ) (base : Region → List ℚ) :
    Region → Option ℚ :=
  fun k =>
    let m := mean (base k)
    let s := stdFn (base k)
    match k with
    | Region.top_high => some (m + SIGMA_TOP * s)
    | Region.top_low => some (m + SIGMA_TOP * s)
    | Region.verify_L => some (min (m + SIGMA_VERIFY * s) (wv * hv * (6/10)))
    | Region.verify_R => some (min (m + SIGMA_VERIFY * s) (wv * hv * (6/10)))
    | _ => some (m + SIGMA_BOT * s * (12/10))

/-- The buffer part of the calibration (lines 186-190): on the very
first frame after a (re)start the background is only seeded and no
motion score exists, so nothing is buffered; afterwards each region's
score is appended until `BASE_FRAMES` samples are held. -/
def baseUpd (st : DState) (mot : Region → ℚ) : Region → List ℚ :=
  if st.bgSet then
    fun k =>
      if (st.base k).length < BASE_FRAMES then st.base k ++ [mot k]
      else st.base k
  else st.base

/-- The calibration part of a frame (lines 183-201): scores are
buffered by `baseUpd`; once every buffer is full, the startup delay has
elapsed and the model is not yet armed, thresholds are computed and the
model arms (line 193 evaluates the fullness check against the buffers
after this frame's appends). -/
def calUpdate (stdFn : List ℚ → ℚ) (st : DState) (mot : Region → ℚ)
    (rt : ℚ) : DState :=
  if st.armed = false ∧
      (∀ k ∈ regions, BASE_FRAMES ≤ (baseUpd st mot k).length) ∧
      ARM_DELAY ≤ rt then
    { st with bgSet := true, base := baseUpd st mot,
              thr := armThr stdFn (baseUpd st mot), armed := true }
  else { st with bgSet := true, base := baseUpd st mot }

-- ── hot classification (lines 203-205) ──

/-- `mot > thr` with `none` standing for `math.inf` (nothing exceeds an
infinite threshold). -/
def gtThr (x : ℚ) : Option ℚ → Bool
  | none => false
  | some t => decide (t < x)

/-- `mot < thr * 0.1` with `none` standing for `math.inf` (everything
is below a tenth of an infinite threshold). -/
def ltThrFrac (x : ℚ) : Option ℚ → Bool
  | none => true
  | some t => decide (x < t * (1/10))

/-- Line 203: the floor region is hot iff armed and both halves exceed
their thresholds. -/
def bot_hot (armed : Bool) (mot : Region → ℚ) (thr : Region → Option ℚ) :
    Bool :=
  armed && gtThr (mot Region.bot_L) (thr Region.bot_L)
        && gtThr (mot Region.bot_R) (thr Region.bot_R)

/-- Line 204: the crest region is hot iff armed and at least one half
exceeds its threshold. -/
def top_hot (armed : Bool) (mot : Region → ℚ) (thr : Region → Option ℚ) :
    Bool :=
  armed && (gtThr (mot Region.top_high) (thr Region.top_high)
         || gtThr (mot Region.top_low) (thr Region.top_low))

/-- Line 205: the verify region is hot iff armed and both halves exceed
their thresholds. -/
def ver_hot (armed : Bool) (mot : Region → ℚ) (thr : Region → Option ℚ) :
    Bool :=
  armed && gtThr (mot Region.verify_L) (thr Region.verify_L)
        && gtThr (mot Region.verify_R) (thr Region.verify_R)

/-- Line 231's exit test for RBACK_DECEL: both floor halves below a
tenth of their thresholds. -/
def bot_quiet (mot : Region → ℚ) (thr : Region → Option ℚ) : Bool :=
  ltThrFrac (mot Region.bot_L) (thr Region.bot_L)
    && ltThrFrac (mot Region.bot_R) (thr Region.bot_R)

-- ── LaunchStateMachine (lines 207-285) ──

/-- Per-frame inputs to the state machine: frame time, the three hot
booleans and the floor-quiet test of line 231 (computed by the motion
model), and the smoothed velocity. -/
structure FrameInput where
  frame_time : ℚ
  bh : Bool
  th : Bool
  vh : Bool
  bq : Bool
  v : ℚ

/-- Line 223: within `RECONNECT_GRACE_PERIOD` of the last successful
reconnect. -/
def reconnectGrace (st : DState) (ft : ℚ) : Bool :=
  match st.last_reconnect_time with
  | some r => decide (ft - r < RECONNECT_GRACE_PERIOD)
  | none => false

/-- Line 221: within `ASC2_GRACE_PERIOD` of entering ASC2. -/
def inGrace (st : DState) (ft : ℚ) : Bool :=
  match st.asc2_start with
  | some a => decide (ft - a < ASC2_GRACE_PERIOD)
  | none => false

/-- Line 224: stuck in RBACK_DECEL for more than 30 s (the entry time
lives in the function attribute `detector._rback_start`; `none` models
the `getattr` default, which compares the frame time with itself). -/
def stuckInRback (st : DState) (ft : ℚ) : Bool :=
  decide (st.state = S.RBACK_DECEL) &&
    (match st.rback_start with
     | some r => decide (30 < ft - r)
     | none => false)

/-- Descent tracking (lines 207-211): a crest sighting stamps
`descent_start` and raises `descent_seen`; both decay one second after
the last sighting.  The Python truthiness of `descent_start` (a float)
is translated as `ds ≠ 0`. -/
def descentUpdate (st : DState) (inp : FrameInput) : DState :=
  if inp.th then
    { st with descent_start := some inp.frame_time, descent_seen := true }
  else
    match st.descent_start with
    | some ds =>
        if ds ≠ 0 ∧ 1 < inp.frame_time - ds then
          { st with descent_start := none, descent_seen := false }
        else st
    | none => st

/-- The `if interval elapsed: if log_event(...): last_event_time = now`
pattern of lines 246-249, 265-268 and 277-280. -/
def tryEmit (st : DState) (o : Outcome) (ft : ℚ) : DState :=
  if MIN_EVENT_INTERVAL ≤ ft - st.last_event_time then
    let p := log_event st.log o ft
    { st with log := p.2,
              last_event_time := if p.1 then ft else st.last_event_time }
  else st

/-- Line 246's deadline test `frame_time - asc2_start >= AUTO_SUCCESS`
(`asc2_start` is always set while in ASC2). -/
def asc2Timeout (st : DState) (ft : ℚ) : Bool :=
  match st.asc2_start with
  | some a => decide (AUTO_SUCCESS ≤ ft - a)
  | none => false

/-- Line 265's deadline test `frame_time >= verify_dead` (`verify_dead`
is always set while in VERIFY). -/
def verifyDeadPassed (st : DState) (ft : ℚ) : Bool :=
  match st.verify_dead with
  | some d => decide (d ≤ ft)
  | none => false

/-- The counter update of lines 238-241: incremented on strong evidence
(`v > 5`), decremented by two otherwise (`max(0, ...)` is natural
subtraction here). -/
def asc2Rc (st : DState) (inp : FrameInput) : ℕ :=
  if 5 < inp.v then st.rollback_confirm_count + 1
  else st.rollback_confirm_count - 2

/-- The body of the ASC2 rollback-evidence branch (lines 237-245): the
rollback fires only when the updated counter reaches 15 and the minimum
event interval has elapsed since the last emitted event; the write goes
through `log_event` and may still be suppressed there. -/
def asc2Rollback (st : DState) (inp : FrameInput) : DState :=
  if 15 ≤ asc2Rc st inp ∧
      MIN_EVENT_INTERVAL ≤ inp.frame_time - st.last_event_time then
    { st with
        log := (log_event st.log Outcome.rollback inp.frame_time).2,
        last_event_time :=
          if (log_event st.log Outcome.rollback inp.frame_time).1 then
            inp.frame_time
          else st.last_event_time,
        state := S.IDLE, rollback_confirm_count := 0 }
  else { st with rollback_confirm_count := asc2Rc st inp }

/-- The hit update of lines 252-259: floor evidence adds one hit,
verify-region evidence two; absent evidence decays the counter by four
(`max(0, ...)` is natural subtraction here). -/
def verifyHitsUpd (st : DState) (inp : FrameInput) : ℕ :=
  if inp.bh ∧ ROLLBACK_VELOCITY_THRESHOLD < inp.v ∧ inp.v < 12 then
    st.verify_hits + 1
  else if inp.vh ∧ VERIFY_ROLLBACK_VELOCITY < inp.v ∧ inp.v < 15 then
    st.verify_hits + 2
  else st.verify_hits - 4

/-- The body of the VERIFY branch (lines 251-269): a confirmed rollback
needs `ROLLBACK_CONFIRM_FRAMES` hits outside the reconnect grace window
with the minimum event interval elapsed, else a passed verify deadline
resolves to success; otherwise the machine stays in VERIFY.  (The grace
test and the times read fields the hit update does not touch, so they
are written against `st`.) -/
def verifyStep (st : DState) (inp : FrameInput) : DState :=
  if ROLLBACK_CONFIRM_FRAMES ≤ verifyHitsUpd st inp ∧
      ¬reconnectGrace st inp.frame_time ∧
      MIN_EVENT_INTERVAL ≤ inp.frame_time - st.last_event_time then
    { st with
        verify_hits := verifyHitsUpd st inp,
        log := (log_event st.log Outcome.rollback inp.frame_time).2,
        last_event_time :=
          if (log_event st.log Outcome.rollback inp.frame_time).1 then
            inp.frame_time
          else st.last_event_time,
        state := S.IDLE, rollback_confirm_count := 0 }
  else if verifyDeadPassed st inp.frame_time then
    { tryEmit { st with verify_hits := verifyHitsUpd st inp }
        Outcome.success inp.frame_time with
        state := S.IDLE, rollback_confirm_count := 0 }
  else { st with verify_hits := verifyHitsUpd st inp }

/-- The if/elif transition chain of lines 227-269 (`can_rb` of line 222
is inlined into the condition of the rollback-evidence branch). -/
def fsmChain (st : DState) (inp : FrameInput) : DState :=
  if st.state = S.IDLE ∧ inp.bh ∧ inp.v < UP_FAST then
    { st with state := S.ASC1, rollback_confirm_count := 0 }
  else if st.state = S.ASC1 ∧ inp.bh ∧ DOWN_FAST < inp.v then
    { st with state := S.RBACK_DECEL, rollback_confirm_count := 0,
              rback_start := some inp.frame_time }
  else if st.state = S.RBACK_DECEL ∧
      (inp.bq ∨ stuckInRback st inp.frame_time) then
    { st with t_wait := inp.frame_time, state := S.WAIT,
              rollback_confirm_count := 0 }
  else if st.state = S.WAIT ∧ inp.bh ∧ inp.v < UP_FAST ∧
      (1/2 : ℚ) < inp.frame_time - st.t_wait then
    { st with state := S.ASC2, asc2_start := some inp.frame_time,
              descent_seen := false, rollback_confirm_count := 0 }
  else if st.state = S.ASC2 ∧ st.descent_seen then
    { st with pending_id := true,
              verify_dead := some (inp.frame_time + VERIFY_WINDOW),
              state := S.VERIFY, verify_hits := 0,
              rollback_confirm_count := 0 }
  else if st.state = S.ASC2 ∧ (!inGrace st inp.frame_time || inp.vh) ∧
      inp.bh ∧ DOWN_FAST * 3 < inp.v ∧ ¬st.descent_seen ∧
      ¬reconnectGrace st inp.frame_time then
    asc2Rollback st inp
  else if st.state = S.ASC2 ∧ asc2Timeout st inp.frame_time then
    { tryEmit st Outcome.success inp.frame_time with
        state := S.IDLE, rollback_confirm_count := 0 }
  else if st.state = S.VERIFY then
    verifyStep st inp
  else st

/-- Lines 271-273: the rollback counter is zeroed outside the
rollback-detecting states or on an extreme velocity. -/
def counterReset (st : DState) (inp : FrameInput) : DState :=
  if (st.state ≠ S.ASC2 ∧ st.state ≠ S.VERIFY) ∨ 20 < |inp.v| then
    { st with rollback_confirm_count := 0 }
  else st

/-- Guard of the reconnect-grace block (line 277), evaluated on the
post-chain state. -/
def graceTrigger (st : DState) (inp : FrameInput) : Bool :=
  reconnectGrace st inp.frame_time &&
    (inp.th ||
      ((decide (st.state = S.ASC2) || decide (st.state = S.VERIFY)) &&
        (match st.last_reconnect_time with
         | some r => decide (5 < inp.frame_time - r)
         | none => false)))

/-- Lines 275-281: during the reconnect grace window, a crest sighting
or lingering in ASC2/VERIFY past a 5 s sub-window resolves to success
and returns the machine to IDLE. -/
def graceBlock (st : DState) (inp : FrameInput) : DState :=
  if graceTrigger st inp then
    { tryEmit st Outcome.success inp.frame_time with
        state := S.IDLE, rollback_confirm_count := 0 }
  else st

/-- Lines 283-285: returning to IDLE clears all per-attempt scratch. -/
def idleClear (st : DState) : DState :=
  if st.state = S.IDLE then
    { st with asc2_start := none, descent_start := none,
              verify_dead := none, descent_seen := false,
              verify_hits := 0, rollback_confirm_count := 0 }
  else st

/-- One frame of the state machine (lines 207-285), after the motion
model and velocity tracker have produced the frame's signals. -/
def fsmStep (st : DState) (inp : FrameInput) : DState :=
  idleClear (graceBlock (counterReset (fsmChain (descentUpdate st inp) inp)
    inp) inp)

/-- Run the state machine over a list of frames. -/
def runFsm (st : DState) (l : List FrameInput) : DState :=
  l.foldl fsmStep st

-- ── full per-frame pipeline and the ReconnectionSupervisor ──

/-- Raw per-frame input to the whole pipeline: frame time, per-region
motion scores (the pixel counts of line 188) and the centroid extracted
from the floor mask (line 217). -/
structure RawInput where
  frame_time : ℚ
  mot : Region → ℚ
  cy : Option ℚ

/-- One whole frame of `detector` (lines 183-285): calibration update
and possible arming, hot classification, velocity-ring push and
smoothing, then the state machine. -/
def fullStep (stdFn : List ℚ → ℚ) (st : DState) (inp : RawInput) :
    DState :=
  fsmStep
    { calUpdate stdFn st inp.mot inp.frame_time with
        hist := histPush (calUpdate stdFn st inp.mot inp.frame_time).hist
          inp.cy inp.frame_time }
    { frame_time := inp.frame_time
      bh := bot_hot (calUpdate stdFn st inp.mot inp.frame_time).armed
        inp.mot (calUpdate stdFn st inp.mot inp.frame_time).thr
      th := top_hot (calUpdate stdFn st inp.mot inp.frame_time).armed
        inp.mot (calUpdate stdFn st inp.mot inp.frame_time).thr
      vh := ver_hot (calUpdate stdFn st inp.mot inp.frame_time).armed
        inp.mot (calUpdate stdFn st inp.mot inp.frame_time).thr
      bq := bot_quiet inp.mot (calUpdate stdFn st inp.mot inp.frame_time).thr
      v := smooth_velocity (histPush
        (calUpdate stdFn st inp.mot inp.frame_time).hist inp.cy
        inp.frame_time) }

/-- Run the whole pipeline over a list of frames. -/
def runFull (stdFn : List ℚ → ℚ) (st : DState) (l : List RawInput) :
    DState :=
  l.foldl (fullStep stdFn) st

/-- State reset after a successful reconnect (lines 147-165): the
calibration returns to collecting, the ring is cleared, the machine
returns to IDLE and the grace window opens; the event log,
`last_event_time`, `t_wait`, `pending_id` and the function attribute
`_rback_start` are not reset. -/
def reconnectReset (st : DState) (lrt : ℚ) : DState :=
  { st with last_reconnect_time := some lrt,
            bgSet := false, base := fun _ => [], thr := fun _ => none,
            armed := false, state := S.IDLE, hist := [],
            asc2_start := none, descent_start := none, verify_dead := none,
            descent_seen := false, verify_hits := 0,
            rollback_confirm_count := 0 }

-- ── ReconnectionSupervisor backoff (lines 139-146, 310-317) ──

/-- Line 141: `min(30, 2 ** min(reconnect_attempts, 5))`. -/
def backoff_time (reconnect_attempts : ℕ) : ℕ :=
  min 30 (2 ^ min reconnect_attempts 5)

/-- One read failure on the live source (lines 139-146): the attempt
counter is incremented and the backoff computed; if the counter now
exceeds the maximum (10) the loop breaks, otherwise the loop sleeps
for the backoff and tries to reconnect.  Returns the new counter and
`none` for break, `some backoff` for sleep-and-retry. -/
def read_failure (attempts : ℕ) : ℕ × Option ℕ :=
  let a := attempts + 1
  let b := backoff_time a
  if 10 < a then (a, none) else (a, some b)

/-- A run of `k` consecutive read failures (each reconnect attempt
failing, which leaves the counter unreset): the list of backoff delays
slept, and whether the loop broke out. -/
def runFailures : ℕ → ℕ → List ℕ × Bool
  | _, 0 => ([], false)
  | a, Nat.succ k =>
      match read_failure a with
      | (_, none) => ([], true)
      | (a', some b) =>
          let r := runFailures a' k
          (b :: r.1, r.2)

/-- How the script can end. -/
inductive ScriptEnd
  | normalReturn
  | uncaughtException

/-- How `detector` ends when reconnection attempts are exhausted
(lines 143-145 and 310-317): the loop breaks, `detector` releases its
resources and returns, and the `__main__` block falls off the end of
the script — no `sys.exit` and no exception is raised on this path. -/
def detector_end_on_exhaustion : ScriptEnd := ScriptEnd.normalReturn

/-- The exit status of a Python interpreter for each way the script
ends: 0 for a normal return, 1 for an uncaught exception. -/
def python_exit_status : ScriptEnd → ℕ
  | ScriptEnd.normalReturn => 0
  | ScriptEnd.uncaughtException => 1

-- ── concrete frame builders used by witnesses and counterexamples ──

/-- A frame with no hot region and zero velocity. -/
def blankI (t : ℚ) : FrameInput := ⟨t, false, false, false, false, 0⟩
/-- A frame with the floor hot and strong upward velocity. -/
def upI (t : ℚ) : FrameInput := ⟨t, true, false, false, false, -2⟩
/-- A frame with the floor hot and strong downward velocity. -/
def downI (t : ℚ) : FrameInput := ⟨t, true, false, false, false, 2⟩
/-- A frame with the floor motion below a tenth of its threshold. -/
def quietI (t : ℚ) : FrameInput := ⟨t, false, false, false, true, 0⟩
/-- A frame with a crest sighting. -/
def crestI (t : ℚ) : FrameInput := ⟨t, false, true, false, false, 0⟩
/-- A frame with verify-region rollback evidence (downward velocity 8). -/
def verEvI (t : ℚ) : FrameInput := ⟨t, false, false, true, false, 8⟩

-- ════════ C1: log_event deduplication ════════

/-- C1.  The deduplication of `log_event` fails at a zero timestamp:
after an event of the same outcome recorded at t = 0, a second record
50 s later is appended and reported a success, although the minimum
interval (81 s, and a fortiori the 80 s of the spec's example) has not
elapsed — the truthiness test `if last_ts and ...` of line 72 treats a
zero timestamp as no previous event.  From a nonzero timestamp the
suppression behaves as the claim states (third and fourth conjuncts:
suppressed at 49 s elapsed, allowed at 81 s elapsed). -/
theorem c1_log_event_zero_timestamp :
    log_event ([] : List (ℚ × Outcome)) Outcome.success 0 =
      (true, [(0, Outcome.success)]) ∧
    log_event [((0 : ℚ), Outcome.success)] Outcome.success 50 =
      (true, [(50, Outcome.success), (0, Outcome.success)]) ∧
    log_event [((1 : ℚ), Outcome.success)] Outcome.success 50 =
      (false, [(1, Outcome.success)]) ∧
    log_event [((1 : ℚ), Outcome.success)] Outcome.success 82 =
      (true, [(82, Outcome.success), (1, Outcome.success)]) := by
  decide

-- ════════ C2: amend_last_rollback_to_success ════════

/-- C2.  `amend_last_rollback_to_success` rewrites exactly the most
recent `rollback` row (the first rollback of the newest-first log) to
`success`, keeps its timestamp, leaves every other row unchanged —
including older rollback rows — and is the identity when no rollback
row exists. -/
theorem c2_amend_only_most_recent_rollback :
    (∀ log : List (ℚ × Outcome), (∀ p ∈ log, p.2 ≠ Outcome.rollback) →
      amend_last_rollback_to_success log = log) ∧
    (∀ (log : List (ℚ × Outcome)) (i : ℕ) (p : ℚ × Outcome),
      log[i]? = some p → p.2 = Outcome.rollback →
      (∀ j, j < i → ∀ q : ℚ × Outcome, log[j]? = some q →
        q.2 ≠ Outcome.rollback) →
      (amend_last_rollback_to_success log)[i]? =
        some (p.1, Outcome.success) ∧
      (∀ j, j ≠ i →
        (amend_last_rollback_to_success log)[j]? = log[j]?)) := by
  constructor
  · intro log hno
    induction log with
    | nil => rfl
    | cons hd tl ih =>
        obtain ⟨ts, o⟩ := hd
        have ho : o ≠ Outcome.rollback := hno (ts, o) (by simp)
        have htl : ∀ p ∈ tl, p.2 ≠ Outcome.rollback := by
          intro p hp
          exact hno p (by simp [hp])
        cases o with
        | success => simp [amend_last_rollback_to_success, htl, ih htl]
        | incomplete => simp [amend_last_rollback_to_success, htl, ih htl]
        | rollback => exact absurd rfl ho
  · intro log
    induction log with
    | nil => intro i p hp; simp at hp
    | cons hd tl ih =>
        intro i p hp hroll hbefore
        obtain ⟨ts, o⟩ := hd
        cases i with
        | zero =>
            simp at hp
            subst hp
            have ho : o = Outcome.rollback := hroll
            subst ho
            refine ⟨by simp [amend_last_rollback_to_success], ?_⟩
            intro j hj
            cases j with
            | zero => exact absurd rfl hj
            | succ j' => simp [amend_last_rollback_to_success]
        | succ i' =>
            have ho : o ≠ Outcome.rollback := by
              have := hbefore 0 (Nat.succ_pos i') (ts, o) (by simp)
              simpa using this
            have hp' : tl[i']? = some p := by simpa using hp
            have hbefore' : ∀ j, j < i' → ∀ q : ℚ × Outcome,
                tl[j]? = some q → q.2 ≠ Outcome.rollback := by
              intro j hj q hq
              have := hbefore (j + 1) (Nat.succ_lt_succ hj) q (by simpa using hq)
              exact this
            obtain ⟨h1, h2⟩ := ih i' p hp' hroll hbefore'
            have hamend : amend_last_rollback_to_success ((ts, o) :: tl) =
                (ts, o) :: amend_last_rollback_to_success tl := by
              cases o with
              | success => rfl
              | incomplete => rfl
              | rollback => exact absurd rfl ho
            refine ⟨by simpa [hamend] using h1, ?_⟩
            intro j hj
            cases j with
            | zero => simp [hamend]
            | succ j' =>
                have : j' ≠ i' := fun h => hj (by rw [h])
                simpa [hamend] using h2 j' this

/-- Witness for C2: on a log with two rollback rows, only the most
recent (index 0) is rewritten; the older rollback at index 1 survives. -/
theorem c2_amend_only_most_recent_rollback_witness :
    (amend_last_rollback_to_success
      [((5 : ℚ), Outcome.rollback), (3, Outcome.rollback),
       (1, Outcome.success)])[0]? = some (5, Outcome.success) ∧
    (amend_last_rollback_to_success
      [((5 : ℚ), Outcome.rollback), (3, Outcome.rollback),
       (1, Outcome.success)])[1]? = some (3, Outcome.rollback) := by
  have h := c2_amend_only_most_recent_rollback.2
    [((5 : ℚ), Outcome.rollback), (3, Outcome.rollback),
     (1, Outcome.success)]
    0 (5, Outcome.rollback) (by decide) rfl
    (by intro j hj; exact absurd hj (Nat.not_lt_zero j))
  refine ⟨h.1, ?_⟩
  rw [h.2 1 (by decide)]
  decide

-- ════════ C4: smooth_velocity ════════

/-- A ring with two valid samples but fewer than `VELOCITY_SMOOTHING`
entries. -/
def c4ring : List (Option ℚ × ℚ) := [(some 0, 0), (some 5, 1)]

/-- A full ring of twelve valid samples climbing one unit per second. -/
def c4full : List (Option ℚ × ℚ) :=
  (List.range 12).map (fun k => (some (k : ℚ), (k : ℚ)))

/-- Counterexample to C4: this ring holds two valid samples, so the
claim demands the slope (5 position-units per second), but
`smooth_velocity` returns 0 because the ring holds fewer than
`VELOCITY_SMOOTHING` samples in total (line 105). -/
theorem c4_short_ring_cex :
    (c4ring.filterMap (fun p => p.1)).length = 2 ∧
    claimed_velocity c4ring = 5 ∧
    smooth_velocity c4ring = 0 := by
  decide

/-- C4 as amended: the computed velocity is 0 whenever the ring is not
yet full (fewer than `VELOCITY_SMOOTHING` = 12 samples); once the ring
is full it agrees with the spec's description — zero with fewer than
two valid samples, otherwise the slope between the newest and oldest
valid samples (with a zero slope when they share a timestamp). -/
theorem c4_velocity_characterization :
    ∀ hist : List (Option ℚ × ℚ), hist.length ≤ VELOCITY_SMOOTHING →
      smooth_velocity hist =
        if hist.length < VELOCITY_SMOOTHING then 0
        else claimed_velocity hist := by
  intro h hle
  by_cases hlt : h.length < VELOCITY_SMOOTHING
  · rw [if_pos hlt]
    unfold smooth_velocity
    rw [if_pos hlt]
  · rw [if_neg hlt]
    unfold smooth_velocity claimed_velocity
    rw [if_neg hlt]
    have h12 : h.length = VELOCITY_SMOOTHING := le_antisymm hle (not_lt.mp hlt)
    rw [h12, Nat.sub_self, List.drop_zero]
    have hfm :
        (fun p : Option ℚ × ℚ =>
          match p.1 with
          | some y => some (y, p.2)
          | none => none) =
        (fun p : Option ℚ × ℚ => p.1.map (fun y => (y, p.2))) := by
      funext p
      cases p.1 <;> rfl
    rw [hfm]
    by_cases h2 : (h.filterMap (fun p => p.1.map (fun y => (y, p.2)))).length < 2
    · rw [if_pos h2, if_pos h2]
    · rw [if_neg h2, if_neg h2]
      rcases hl : (h.filterMap (fun p => p.1.map (fun y => (y, p.2)))).getLast? with _ | pl
      · rcases hh : (h.filterMap (fun p => p.1.map (fun y => (y, p.2)))).head? with _ | pf <;>
          rw [hl, hh]
      · rcases hh : (h.filterMap (fun p => p.1.map (fun y => (y, p.2)))).head? with _ | pf
        · rw [hl, hh]
        · rw [hl, hh]
          show (if pl.2 - pf.2 ≠ 0 then (pl.1 - pf.1) / (pl.2 - pf.2) else 0) =
            (pl.1 - pf.1) / (pl.2 - pf.2)
          by_cases hdt : pl.2 - pf.2 = 0
          · rw [if_neg (not_not_intro hdt), hdt, div_zero]
          · rw [if_pos hdt]

/-- Witness for C4's amended claim at a full ring: the code agrees with
the spec formulation once twelve samples are held. -/
theorem c4_velocity_characterization_witness :
    smooth_velocity c4full = claimed_velocity c4full := by
  rw [c4_velocity_characterization c4full (by decide)]
  rw [if_neg (by decide)]

-- ════════ C8: reconnection backoff and exit ════════

theorem backoff_time_mono : ∀ m n : ℕ, m ≤ n →
    backoff_time m ≤ backoff_time n := by
  intro m n h
  unfold backoff_time
  exact min_le_min (le_refl 30)
    (Nat.pow_le_pow_right (by norm_num) (min_le_min h (le_refl 5)))

theorem runFailures_head : ∀ (k a b : ℕ),
    (runFailures a k).1.head? = some b → b = backoff_time (a + 1) := by
  intro k a b hb
  cases k with
  | zero => simp [runFailures] at hb
  | succ k =>
      by_cases h10 : 10 < a + 1
      · simp [runFailures, read_failure, h10] at hb
      · simp [runFailures, read_failure, h10] at hb
        exact hb.symm

theorem runFailures_chain (k : ℕ) : ∀ a,
    List.Chain' (· ≤ ·) (runFailures a k).1 := by
  induction k with
  | zero => intro a; simp [runFailures]
  | succ k ih =>
      intro a
      by_cases h10 : 10 < a + 1
      · simp [runFailures, read_failure, h10]
      · have hstep : runFailures a (k + 1) =
            (backoff_time (a + 1) :: (runFailures (a + 1) k).1,
             (runFailures (a + 1) k).2) := by
          simp [runFailures, read_failure, h10]
        rw [hstep]
        rw [List.chain'_cons']
        refine ⟨?_, ih (a + 1)⟩
        intro y hy
        rw [runFailures_head k (a + 1) y hy]
        exact backoff_time_mono _ _ (by omega)

theorem runFailures_le30 (k : ℕ) : ∀ a, ∀ b ∈ (runFailures a k).1,
    b ≤ 30 := by
  induction k with
  | zero => intro a b hb; simp [runFailures] at hb
  | succ k ih =>
      intro a b hb
      by_cases h10 : 10 < a + 1
      · simp [runFailures, read_failure, h10] at hb
      · simp [runFailures, read_failure, h10] at hb
        rcases hb with hb | hb
        · rw [hb]; exact min_le_left 30 _
        · exact ih (a + 1) b hb

theorem runFailures_term (k : ℕ) : ∀ a, a ≤ 10 →
    ((runFailures a k).2 = true ↔ 11 ≤ a + k) := by
  induction k with
  | zero => intro a ha; simp [runFailures]; omega
  | succ k ih =>
      intro a ha
      by_cases h10 : 10 < a + 1
      · simp [runFailures, read_failure, h10]
        omega
      · have hstep : runFailures a (k + 1) =
            (backoff_time (a + 1) :: (runFailures (a + 1) k).1,
             (runFailures (a + 1) k).2) := by
          simp [runFailures, read_failure, h10]
        rw [hstep]
        have := ih (a + 1) (by omega)
        constructor
        · intro hx
          have := this.mp hx
          omega
        · intro hx
          exact this.mpr (by omega)

/-- C8 as amended: across a run of consecutive read failures the
backoff delays are non-decreasing and capped at 30 s, the loop breaks
exactly once the attempt count exceeds the maximum of 10 (on the 11th
consecutive failure), and the process then terminates normally with
exit status 0 — not non-zero: the `break` of line 145 leads to the
ordinary end of the script. -/
theorem c8_backoff_termination :
    ∀ k : ℕ,
      List.Chain' (· ≤ ·) (runFailures 0 k).1 ∧
      (∀ b ∈ (runFailures 0 k).1, b ≤ 30) ∧
      ((runFailures 0 k).2 = true ↔ 11 ≤ k) ∧
      python_exit_status detector_end_on_exhaustion = 0 := by
  intro k
  refine ⟨runFailures_chain k 0, runFailures_le30 k 0, ?_, rfl⟩
  simpa using runFailures_term k 0 (by norm_num)

/-- Counterexample to C8 as stated: after the 11th consecutive failure
the loop does terminate, but the process exit status on that path is 0,
not non-zero. -/
theorem c8_exit_status_cex :
    (runFailures 0 11).2 = true ∧
    python_exit_status detector_end_on_exhaustion = 0 := by
  decide

/-- Witness for C8's amended claim: a 12-failure run terminates. -/
theorem c8_backoff_termination_witness :
    (runFailures 0 12).2 = true :=
  ((c8_backoff_termination 12).2.2.1).mpr (by norm_num)

-- ── stage bookkeeping lemmas ──

theorem reconnectGrace_congr (st st' : DState) (ft : ℚ)
    (h : st.last_reconnect_time = st'.last_reconnect_time) :
    reconnectGrace st ft = reconnectGrace st' ft := by
  unfold reconnectGrace
  rw [h]

@[simp] theorem descentUpdate_state (st : DState) (inp : FrameInput) :
    (descentUpdate st inp).state = st.state := by
  unfold descentUpdate
  repeat' split
  all_goals rfl

@[simp] theorem descentUpdate_log (st : DState) (inp : FrameInput) :
    (descentUpdate st inp).log = st.log := by
  unfold descentUpdate
  repeat' split
  all_goals rfl

@[simp] theorem descentUpdate_let (st : DState) (inp : FrameInput) :
    (descentUpdate st inp).last_event_time = st.last_event_time := by
  unfold descentUpdate
  repeat' split
  all_goals rfl

@[simp] theorem descentUpdate_lrt (st : DState) (inp : FrameInput) :
    (descentUpdate st inp).last_reconnect_time = st.last_reconnect_time := by
  unfold descentUpdate
  repeat' split
  all_goals rfl

@[simp] theorem descentUpdate_rc (st : DState) (inp : FrameInput) :
    (descentUpdate st inp).rollback_confirm_count =
      st.rollback_confirm_count := by
  unfold descentUpdate
  repeat' split
  all_goals rfl

@[simp] theorem descentUpdate_vh (st : DState) (inp : FrameInput) :
    (descentUpdate st inp).verify_hits = st.verify_hits := by
  unfold descentUpdate
  repeat' split
  all_goals rfl

@[simp] theorem counterReset_state (st : DState) (inp : FrameInput) :
    (counterReset st inp).state = st.state := by
  unfold counterReset
  split
  all_goals rfl

@[simp] theorem counterReset_log (st : DState) (inp : FrameInput) :
    (counterReset st inp).log = st.log := by
  unfold counterReset
  split
  all_goals rfl

@[simp] theorem counterReset_let (st : DState) (inp : FrameInput) :
    (counterReset st inp).last_event_time = st.last_event_time := by
  unfold counterReset
  split
  all_goals rfl

@[simp] theorem counterReset_lrt (st : DState) (inp : FrameInput) :
    (counterReset st inp).last_reconnect_time = st.last_reconnect_time := by
  unfold counterReset
  split
  all_goals rfl

@[simp] theorem idleClear_state (st : DState) :
    (idleClear st).state = st.state := by
  unfold idleClear
  split
  all_goals rfl

@[simp] theorem idleClear_log (st : DState) :
    (idleClear st).log = st.log := by
  unfold idleClear
  split
  all_goals rfl

@[simp] theorem idleClear_let (st : DState) :
    (idleClear st).last_event_time = st.last_event_time := by
  unfold idleClear
  split
  all_goals rfl

@[simp] theorem tryEmit_state (st : DState) (o : Outcome) (ft : ℚ) :
    (tryEmit st o ft).state = st.state := by
  unfold tryEmit
  split
  all_goals rfl

@[simp] theorem tryEmit_lrt (st : DState) (o : Outcome) (ft : ℚ) :
    (tryEmit st o ft).last_reconnect_time = st.last_reconnect_time := by
  unfold tryEmit
  split
  all_goals rfl

/-- Result shape of `log_event`: either the write is suppressed (log
unchanged) or one row is prepended. -/
theorem log_event_shape (log : List (ℚ × Outcome)) (o : Outcome)
    (now : ℚ) :
    log_event log o now = (false, log) ∨
    log_event log o now = (true, (now, o) :: log) := by
  unfold log_event
  split
  · split
    · left; rfl
    · right; rfl
  · right; rfl

/-- Result shape of `tryEmit`: either nothing happens to the log and
the last-event time, or the interval had elapsed and one row of the
given outcome is prepended with the last-event time advanced. -/
theorem tryEmit_shape (st : DState) (o : Outcome) (ft : ℚ) :
    ((tryEmit st o ft).log = st.log ∧
     (tryEmit st o ft).last_event_time = st.last_event_time) ∨
    ((tryEmit st o ft).log = (ft, o) :: st.log ∧
     (tryEmit st o ft).last_event_time = ft ∧
     MIN_EVENT_INTERVAL ≤ ft - st.last_event_time) := by
  unfold tryEmit
  split
  · rcases log_event_shape st.log o ft with he | he
    · left
      simp [he]
    · right
      refine ⟨by simp [he], by simp [he], by assumption⟩
  · left
    exact ⟨rfl, rfl⟩


/-- Result shape of the ASC2 rollback-evidence branch: either the log
and last-event time are untouched, or the branch fired — the state is
IDLE, the interval had elapsed, and either the store suppressed the
write or one rollback row was appended (which needs the incremented
counter to have reached 15). -/
theorem asc2Rollback_shape (st : DState) (inp : FrameInput) :
    ((asc2Rollback st inp).log = st.log ∧
     (asc2Rollback st inp).last_event_time = st.last_event_time) ∨
    ((asc2Rollback st inp).state = S.IDLE ∧
     MIN_EVENT_INTERVAL ≤ inp.frame_time - st.last_event_time ∧
     (((asc2Rollback st inp).log = st.log ∧
       (asc2Rollback st inp).last_event_time = st.last_event_time) ∨
      ((asc2Rollback st inp).log =
         (inp.frame_time, Outcome.rollback) :: st.log ∧
       (asc2Rollback st inp).last_event_time = inp.frame_time ∧
       15 ≤ st.rollback_confirm_count + 1))) := by
  unfold asc2Rollback
  by_cases hc : 15 ≤ asc2Rc st inp ∧
      MIN_EVENT_INTERVAL ≤ inp.frame_time - st.last_event_time
  · rw [if_pos hc]
    have h15 : 15 ≤ st.rollback_confirm_count + 1 := by
      have h := hc.1
      unfold asc2Rc at h
      split at h
      · exact h
      · omega
    rcases log_event_shape st.log Outcome.rollback inp.frame_time
      with he | he
    · right
      exact ⟨rfl, hc.2, Or.inl ⟨by simp [he], by simp [he]⟩⟩
    · right
      exact ⟨rfl, hc.2, Or.inr ⟨by simp [he], by simp [he], h15⟩⟩
  · rw [if_neg hc]
    left
    exact ⟨rfl, rfl⟩

theorem asc2Rollback_state (st : DState) (inp : FrameInput) :
    (asc2Rollback st inp).state = st.state ∨
    (asc2Rollback st inp).state = S.IDLE := by
  unfold asc2Rollback
  by_cases hc : 15 ≤ asc2Rc st inp ∧
      MIN_EVENT_INTERVAL ≤ inp.frame_time - st.last_event_time
  · rw [if_pos hc]; right; rfl
  · rw [if_neg hc]; left; rfl

/-- Result shape of the VERIFY branch: either the log and last-event
time are untouched, or the state is IDLE, the interval had elapsed, and
either nothing was appended, or one success row (deadline path) or one
rollback row (confirmed-evidence path, outside the reconnect grace
window, with the updated hit counter at the confirmation threshold). -/
theorem verifyStep_shape (st : DState) (inp : FrameInput) :
    ((verifyStep st inp).log = st.log ∧
     (verifyStep st inp).last_event_time = st.last_event_time) ∨
    ((verifyStep st inp).state = S.IDLE ∧
     MIN_EVENT_INTERVAL ≤ inp.frame_time - st.last_event_time ∧
     (((verifyStep st inp).log = st.log ∧
       (verifyStep st inp).last_event_time = st.last_event_time) ∨
      ((verifyStep st inp).log =
         (inp.frame_time, Outcome.success) :: st.log ∧
       (verifyStep st inp).last_event_time = inp.frame_time) ∨
      ((verifyStep st inp).log =
         (inp.frame_time, Outcome.rollback) :: st.log ∧
       (verifyStep st inp).last_event_time = inp.frame_time ∧
       reconnectGrace st inp.frame_time = false ∧
       25 ≤ st.verify_hits + 2))) := by
  unfold verifyStep
  by_cases hA : ROLLBACK_CONFIRM_FRAMES ≤ verifyHitsUpd st inp ∧
      ¬reconnectGrace st inp.frame_time ∧
      MIN_EVENT_INTERVAL ≤ inp.frame_time - st.last_event_time
  · rw [if_pos hA]
    have h25 : 25 ≤ st.verify_hits + 2 := by
      have h := hA.1
      unfold verifyHitsUpd at h
      rw [show ROLLBACK_CONFIRM_FRAMES = 25 from rfl] at h
      split at h
      · omega
      · split at h
        · omega
        · omega
    have hg : reconnectGrace st inp.frame_time = false :=
      Bool.eq_false_iff.mpr hA.2.1
    rcases log_event_shape st.log Outcome.rollback inp.frame_time
      with he | he
    · right
      exact ⟨rfl, hA.2.2, Or.inl ⟨by simp [he], by simp [he]⟩⟩
    · right
      exact ⟨rfl, hA.2.2,
        Or.inr (Or.inr ⟨by simp [he], by simp [he], hg, h25⟩)⟩
  · rw [if_neg hA]
    by_cases hdead : verifyDeadPassed st inp.frame_time = true
    · rw [if_pos hdead]
      rcases tryEmit_shape { st with verify_hits := verifyHitsUpd st inp }
        Outcome.success inp.frame_time with he | he
      · left
        exact ⟨he.1, he.2⟩
      · right
        exact ⟨rfl, he.2.2, Or.inr (Or.inl ⟨he.1, he.2.1⟩)⟩
    · rw [if_neg hdead]
      left
      exact ⟨rfl, rfl⟩

theorem verifyStep_state (st : DState) (inp : FrameInput) :
    (verifyStep st inp).state = st.state ∨
    (verifyStep st inp).state = S.IDLE := by
  unfold verifyStep
  by_cases hA : ROLLBACK_CONFIRM_FRAMES ≤ verifyHitsUpd st inp ∧
      ¬reconnectGrace st inp.frame_time ∧
      MIN_EVENT_INTERVAL ≤ inp.frame_time - st.last_event_time
  · rw [if_pos hA]; right; rfl
  · rw [if_neg hA]
    by_cases hdead : verifyDeadPassed st inp.frame_time = true
    · rw [if_pos hdead]; right; rfl
    · rw [if_neg hdead]; left; rfl

/-- Result shape of the reconnect-grace block: either the log and
last-event time are untouched (and the state is kept or forced to
IDLE), or one success row was appended with the state forced to IDLE
and the interval elapsed. -/
theorem graceBlock_shape (st : DState) (inp : FrameInput) :
    ((graceBlock st inp).log = st.log ∧
     (graceBlock st inp).last_event_time = st.last_event_time ∧
     ((graceBlock st inp).state = st.state ∨
      (graceBlock st inp).state = S.IDLE)) ∨
    ((graceBlock st inp).log = (inp.frame_time, Outcome.success) :: st.log ∧
     (graceBlock st inp).last_event_time = inp.frame_time ∧
     (graceBlock st inp).state = S.IDLE ∧
     MIN_EVENT_INTERVAL ≤ inp.frame_time - st.last_event_time) := by
  unfold graceBlock
  by_cases hg : graceTrigger st inp = true
  · rw [if_pos hg]
    rcases tryEmit_shape st Outcome.success inp.frame_time with he | he
    · left
      exact ⟨he.1, he.2, Or.inr rfl⟩
    · right
      exact ⟨he.1, he.2.1, rfl, he.2.2⟩
  · rw [if_neg hg]
    left
    exact ⟨rfl, rfl, Or.inl rfl⟩

theorem graceBlock_idle_of_trigger (st : DState) (inp : FrameInput)
    (h : graceTrigger st inp = true) :
    (graceBlock st inp).state = S.IDLE := by
  unfold graceBlock
  rw [if_pos h]

theorem graceBlock_eq_of_not_trigger (st : DState) (inp : FrameInput)
    (h : ¬ graceTrigger st inp = true) : graceBlock st inp = st := by
  unfold graceBlock
  rw [if_neg h]

/-- Result shape of the transition chain: either the log and last-event
time are untouched, or the chain resolved to IDLE with the minimum
event interval elapsed, and at most one row — success from a deadline
path, or rollback from an evidence path outside the reconnect grace
window with the relevant counter at its threshold — was appended. -/
theorem fsmChain_shape (st : DState) (inp : FrameInput) :
    ((fsmChain st inp).log = st.log ∧
     (fsmChain st inp).last_event_time = st.last_event_time) ∨
    ((fsmChain st inp).state = S.IDLE ∧
     MIN_EVENT_INTERVAL ≤ inp.frame_time - st.last_event_time ∧
     (((fsmChain st inp).log = st.log ∧
       (fsmChain st inp).last_event_time = st.last_event_time) ∨
      ((fsmChain st inp).log =
         (inp.frame_time, Outcome.success) :: st.log ∧
       (fsmChain st inp).last_event_time = inp.frame_time) ∨
      ((fsmChain st inp).log =
         (inp.frame_time, Outcome.rollback) :: st.log ∧
       (fsmChain st inp).last_event_time = inp.frame_time ∧
       reconnectGrace st inp.frame_time = false ∧
       ((st.state = S.ASC2 ∧ 15 ≤ st.rollback_confirm_count + 1) ∨
        (st.state = S.VERIFY ∧ 25 ≤ st.verify_hits + 2))))) := by
  unfold fsmChain
  split_ifs with h1 h2 h3 h4 h5 h6 h7 h8
  · left; exact ⟨rfl, rfl⟩
  · left; exact ⟨rfl, rfl⟩
  · left; exact ⟨rfl, rfl⟩
  · left; exact ⟨rfl, rfl⟩
  · left; exact ⟨rfl, rfl⟩
  · rcases asc2Rollback_shape st inp with h | ⟨hs, hi, hc⟩
    · left; exact h
    · right
      refine ⟨hs, hi, ?_⟩
      rcases hc with hc | hc
      · exact Or.inl hc
      · exact Or.inr (Or.inr ⟨hc.1, hc.2.1,
          Bool.eq_false_iff.mpr h6.2.2.2.2.2, Or.inl ⟨h6.1, hc.2.2⟩⟩)
  · rcases tryEmit_shape st Outcome.success inp.frame_time with he | he
    · left; exact ⟨he.1, he.2⟩
    · right
      exact ⟨rfl, he.2.2, Or.inr (Or.inl ⟨he.1, he.2.1⟩)⟩
  · rcases verifyStep_shape st inp with h | ⟨hs, hi, hc⟩
    · left; exact h
    · right
      refine ⟨hs, hi, ?_⟩
      rcases hc with hc | hc | hc
      · exact Or.inl hc
      · exact Or.inr (Or.inl hc)
      · exact Or.inr (Or.inr ⟨hc.1, hc.2.1, hc.2.2.1,
          Or.inr ⟨h8, hc.2.2.2⟩⟩)
  · left; exact ⟨rfl, rfl⟩

/-- The chain takes ASC2 or VERIFY only to ASC2, VERIFY or IDLE. -/
theorem fsmChain_state_sub (st : DState) (inp : FrameInput)
    (h : st.state = S.ASC2 ∨ st.state = S.VERIFY) :
    (fsmChain st inp).state = S.ASC2 ∨
    (fsmChain st inp).state = S.VERIFY ∨
    (fsmChain st inp).state = S.IDLE := by
  unfold fsmChain
  split_ifs with h1 h2 h3 h4 h5 h6 h7 h8
  · rcases h with h | h
    · exact absurd (h1.1.symm.trans h) (by decide)
    · exact absurd (h1.1.symm.trans h) (by decide)
  · rcases h with h | h
    · exact absurd (h2.1.symm.trans h) (by decide)
    · exact absurd (h2.1.symm.trans h) (by decide)
  · rcases h with h | h
    · exact absurd (h3.1.symm.trans h) (by decide)
    · exact absurd (h3.1.symm.trans h) (by decide)
  · rcases h with h | h
    · exact absurd (h4.1.symm.trans h) (by decide)
    · exact absurd (h4.1.symm.trans h) (by decide)
  · right; left; rfl
  · rcases asc2Rollback_state st inp with hs | hs
    · left
      rw [hs, h6.1]
    · right; right; exact hs
  · right; right; rfl
  · rcases verifyStep_state st inp with hs | hs
    · right; left
      rw [hs, h8]
    · right; right; exact hs
  · rcases h with h | h
    · left; exact h
    · right; left; exact h

/-- Master shape of one whole FSM frame: the log either is untouched or
gains exactly one row; a gained row forces the post-state to IDLE and
needs the minimum event interval to have elapsed since the last emitted
event; a gained rollback row additionally needs the frame to be outside
the reconnect grace window and the relevant evidence counter (before
its per-frame update) to be at its threshold. -/
theorem fsmStep_shape (st : DState) (inp : FrameInput) :
    ((fsmStep st inp).log = st.log) ∨
    ((fsmStep st inp).state = S.IDLE ∧
     MIN_EVENT_INTERVAL ≤ inp.frame_time - st.last_event_time ∧
     ((fsmStep st inp).log = (inp.frame_time, Outcome.success) :: st.log ∨
      ((fsmStep st inp).log =
         (inp.frame_time, Outcome.rollback) :: st.log ∧
       reconnectGrace st inp.frame_time = false ∧
       ((st.state = S.ASC2 ∧ 15 ≤ st.rollback_confirm_count + 1) ∨
        (st.state = S.VERIFY ∧ 25 ≤ st.verify_hits + 2))))) := by
  have e1state := descentUpdate_state st inp
  have e1log := descentUpdate_log st inp
  have e1let := descentUpdate_let st inp
  have e1lrt := descentUpdate_lrt st inp
  have e1rc := descentUpdate_rc st inp
  have e1vh := descentUpdate_vh st inp
  have e1g : reconnectGrace (descentUpdate st inp) inp.frame_time =
      reconnectGrace st inp.frame_time :=
    reconnectGrace_congr _ _ _ e1lrt
  set st1 := descentUpdate st inp with hst1
  set st2 := fsmChain st1 inp with hst2
  set st3 := counterReset st2 inp with hst3
  set st4 := graceBlock st3 inp with hst4
  have e3state : st3.state = st2.state := counterReset_state st2 inp
  have e3log : st3.log = st2.log := counterReset_log st2 inp
  have e3let : st3.last_event_time = st2.last_event_time :=
    counterReset_let st2 inp
  have hfinal : fsmStep st inp = idleClear st4 := rfl
  rcases fsmChain_shape st1 inp with ⟨hl2, he2⟩ | ⟨hs2, hi2, hc2⟩
  · -- the chain left the log untouched
    rcases graceBlock_shape st3 inp with ⟨hl4, he4, _⟩ | ⟨hl4, he4, hs4, hi4⟩
    · left
      rw [hfinal, idleClear_log, hl4, e3log, hl2, e1log]
    · right
      rw [hfinal, idleClear_log, idleClear_state]
      refine ⟨hs4, ?_, Or.inl ?_⟩
      · rw [e3let, he2, e1let] at hi4
        exact hi4
      · rw [hl4, e3log, hl2, e1log]
  · -- the chain resolved to IDLE
    rcases hc2 with ⟨hl2, he2⟩ | ⟨hl2, he2⟩ | ⟨hl2, he2, hg2, hcnt2⟩
    · -- the chain called the store but the write was suppressed
      rcases graceBlock_shape st3 inp with ⟨hl4, he4, _⟩ |
        ⟨hl4, he4, hs4, hi4⟩
      · left
        rw [hfinal, idleClear_log, hl4, e3log, hl2, e1log]
      · right
        rw [hfinal, idleClear_log, idleClear_state]
        refine ⟨hs4, ?_, Or.inl ?_⟩
        · rw [e3let, he2, e1let] at hi4
          exact hi4
        · rw [hl4, e3log, hl2, e1log]
    · -- the chain appended a success row
      rcases graceBlock_shape st3 inp with ⟨hl4, he4, hs4⟩ |
        ⟨_, _, _, hi4⟩
      · right
        rw [hfinal, idleClear_log, idleClear_state]
        refine ⟨?_, ?_, Or.inl ?_⟩
        · rcases hs4 with hs4 | hs4
          · rw [hs4, e3state, hs2]
          · exact hs4
        · rw [e1let] at hi2
          exact hi2
        · rw [hl4, e3log, hl2, e1log]
      · exfalso
        rw [e3let, he2, sub_self] at hi4
        exact absurd hi4 (by norm_num [MIN_EVENT_INTERVAL])
    · -- the chain appended a rollback row
      rcases graceBlock_shape st3 inp with ⟨hl4, he4, hs4⟩ |
        ⟨_, _, _, hi4⟩
      · right
        rw [hfinal, idleClear_log, idleClear_state]
        refine ⟨?_, ?_, Or.inr ⟨?_, ?_, ?_⟩⟩
        · rcases hs4 with hs4 | hs4
          · rw [hs4, e3state, hs2]
          · exact hs4
        · rw [e1let] at hi2
          exact hi2
        · rw [hl4, e3log, hl2, e1log]
        · rw [← e1g]
          exact hg2
        · rw [e1state, e1rc, e1vh] at hcnt2
          exact hcnt2
      · exfalso
        rw [e3let, he2, sub_self] at hi4
        exact absurd hi4 (by norm_num [MIN_EVENT_INTERVAL])

/-- A frame with floor rollback evidence at downward velocity 7. -/
def botEvI (t : ℚ) : FrameInput := ⟨t, true, false, false, false, 7⟩

-- ════════ C3: outcome emission per cycle ════════

/-- C3 as amended: on every frame the event log either is unchanged or
gains exactly one row, and whenever a row is gained the machine ends
that frame in IDLE with the minimum event interval elapsed since the
last emitted event.  (The original claim's "exactly one outcome per
cycle" fails: a cycle can resolve with zero rows, see the
counterexample.) -/
theorem c3_at_most_one_emission :
    ∀ (st : DState) (inp : FrameInput),
      (fsmStep st inp).log = st.log ∨
      ∃ o : Outcome,
        (fsmStep st inp).log = (inp.frame_time, o) :: st.log ∧
        (fsmStep st inp).state = S.IDLE ∧
        MIN_EVENT_INTERVAL ≤ inp.frame_time - st.last_event_time := by
  intro st inp
  rcases fsmStep_shape st inp with h | ⟨hs, hi, hc⟩
  · left; exact h
  · right
    rcases hc with hc | hc
    · exact ⟨Outcome.success, hc, hs, hi⟩
    · exact ⟨Outcome.rollback, hc.1, hs, hi⟩

/-- A full launch cycle resolved by the ASC2 auto-success deadline
before 81 s of frame time (a 0.2 fps recorded video): IDLE → ASC1 →
RBACK_DECEL → WAIT → ASC2 → IDLE. -/
def c3inputs : List FrameInput :=
  [upI 5, downI 10, quietI 15, upI 20, blankI 25, blankI 30]

set_option maxRecDepth 100000 in
/-- Counterexample to C3 as stated: this run leaves IDLE (frame 1
reaches ASC1, frame 4 reaches ASC2) and returns to IDLE at frame 6 via
the auto-success deadline, yet appends no row at all — the emission at
line 247 is skipped because `frame_time - last_event_time` (30 s) is
below the minimum event interval, so the cycle ends with zero
outcomes. -/
theorem c3_zero_outcome_cycle_cex :
    (runFsm initState (c3inputs.take 1)).state = S.ASC1 ∧
    (runFsm initState (c3inputs.take 4)).state = S.ASC2 ∧
    (runFsm initState c3inputs).state = S.IDLE ∧
    (runFsm initState c3inputs).log = initState.log := by
  decide

-- ════════ C10: rollback gating in ASC2 and VERIFY ════════

/-- C10 as amended: a rollback row is appended only when the minimum
event interval (81 s of frame time) has elapsed since the last emitted
event and the relevant evidence counter is at its confirmation
threshold (ASC2: updated confirm counter at 15; VERIFY: updated hit
counter at 25); and when the interval has not elapsed, the frame emits
nothing at all.  (The original claim's "stays in ASC2 or VERIFY" fails:
a success-deadline transition can still return the machine to IDLE on
that same frame, see the counterexample.) -/
theorem c10_rollback_gate :
    (∀ (st : DState) (inp : FrameInput),
      (fsmStep st inp).log =
        (inp.frame_time, Outcome.rollback) :: st.log →
      MIN_EVENT_INTERVAL ≤ inp.frame_time - st.last_event_time ∧
      ((st.state = S.ASC2 ∧ 15 ≤ st.rollback_confirm_count + 1) ∨
       (st.state = S.VERIFY ∧ 25 ≤ st.verify_hits + 2))) ∧
    (∀ (st : DState) (inp : FrameInput),
      inp.frame_time - st.last_event_time < MIN_EVENT_INTERVAL →
      (fsmStep st inp).log = st.log) := by
  constructor
  · intro st inp hlog
    rcases fsmStep_shape st inp with h | ⟨_, hi, hc⟩
    · exfalso
      rw [hlog] at h
      exact List.cons_ne_self _ _ h
    · rcases hc with hc | hc
      · exfalso
        rw [hlog] at hc
        simp at hc
      · exact ⟨hi, hc.2.2⟩
  · intro st inp hlt
    rcases fsmStep_shape st inp with h | ⟨_, hi, _⟩
    · exact h
    · exact absurd hi (not_le.mpr hlt)

/-- A state deep in VERIFY with a confirmed hit counter. -/
def c10wSt : DState :=
  { initState with state := S.VERIFY, verify_hits := 25,
                   verify_dead := some 200 }

/-- A floor-evidence frame at t = 100 s. -/
def c10wInp : FrameInput := botEvI 100

/-- A state whose last emitted event is recent. -/
def c10wSt2 : DState :=
  { initState with state := S.ASC2, asc2_start := some 89,
                   last_event_time := 50 }

/-- A quiet frame at t = 99 s (interval not elapsed). -/
def c10wInp2 : FrameInput := blankI 99

/-- Witness for C10's amended claim: a confirmed VERIFY rollback at
t = 100 satisfies the gate, and a frame with the interval not elapsed
leaves the log unchanged. -/
theorem c10_rollback_gate_witness :
    (MIN_EVENT_INTERVAL ≤ c10wInp.frame_time - c10wSt.last_event_time ∧
     ((c10wSt.state = S.ASC2 ∧ 15 ≤ c10wSt.rollback_confirm_count + 1) ∨
      (c10wSt.state = S.VERIFY ∧ 25 ≤ c10wSt.verify_hits + 2))) ∧
    (fsmStep c10wSt2 c10wInp2).log = c10wSt2.log := by
  refine ⟨c10_rollback_gate.1 c10wSt c10wInp ?_,
    c10_rollback_gate.2 c10wSt2 c10wInp2 ?_⟩
  · decide
  · decide

/-- A ramp at 2 fps into VERIFY with continuous verify-region rollback
evidence: the hit counter passes its threshold long before the verify
deadline (t = 11 s), but the interval gate blocks the rollback. -/
def c10inputs : List FrameInput :=
  [upI (1/2), downI 1, quietI (3/2), blankI 2, upI (5/2), crestI 3] ++
    (List.range 16).map (fun i => verEvI ((7 + (i : ℚ)) / 2))

set_option maxRecDepth 100000 in
/-- Counterexample to C10 as stated: after frame 21 (t = 10.5) the
machine is in VERIFY with the hit counter far beyond its threshold and
the minimum event interval not elapsed — yet on the next frame
(t = 11) it does not stay in VERIFY: the verify deadline fires and
returns it to IDLE, emitting nothing. -/
theorem c10_deadline_exit_cex :
    (runFsm initState (c10inputs.take 21)).state = S.VERIFY ∧
    ROLLBACK_CONFIRM_FRAMES ≤
      (runFsm initState (c10inputs.take 21)).verify_hits ∧
    (11 : ℚ) - (runFsm initState (c10inputs.take 21)).last_event_time <
      MIN_EVENT_INTERVAL ∧
    (runFsm initState c10inputs).state = S.IDLE ∧
    (runFsm initState c10inputs).log =
      (runFsm initState (c10inputs.take 21)).log := by
  decide

-- ════════ C9: reconnect reset and grace window ════════

theorem asc2Rollback_lrt (st : DState) (inp : FrameInput) :
    (asc2Rollback st inp).last_reconnect_time =
      st.last_reconnect_time := by
  unfold asc2Rollback
  split_ifs <;> rfl

theorem verifyStep_lrt (st : DState) (inp : FrameInput) :
    (verifyStep st inp).last_reconnect_time = st.last_reconnect_time := by
  unfold verifyStep
  split_ifs <;> first
    | rfl
    | exact tryEmit_lrt _ _ _

theorem fsmChain_lrt (st : DState) (inp : FrameInput) :
    (fsmChain st inp).last_reconnect_time = st.last_reconnect_time := by
  unfold fsmChain
  split_ifs <;> first
    | rfl
    | exact asc2Rollback_lrt st inp
    | exact verifyStep_lrt st inp
    | exact tryEmit_lrt _ _ _

theorem reconnectGrace_some (st : DState) (ft : ℚ)
    (h : reconnectGrace st ft = true) :
    ∃ r, st.last_reconnect_time = some r ∧
      ft - r < RECONNECT_GRACE_PERIOD := by
  unfold reconnectGrace at h
  cases hr : st.last_reconnect_time with
  | none => rw [hr] at h; exact absurd h (by simp)
  | some r =>
      rw [hr] at h
      exact ⟨r, rfl, of_decide_eq_true h⟩

/-- C9.  After a successful reconnect the calibration returns to
collecting (background seed, buffers, thresholds and armed flag reset),
the velocity ring is cleared, the machine returns to IDLE and the grace
window opens (first conjunct); during the grace window no rollback row
can be appended — any row a frame appends is a success (second
conjunct); and a crest sighting, or being in ASC2 or VERIFY more than
the 5 s sub-window after the reconnect, forces the frame to end in IDLE
(third conjunct), resolving the attempt through the success write
path. -/
theorem c9_reconnect_reset_and_grace :
    (∀ (st : DState) (lrt : ℚ),
      (reconnectReset st lrt).armed = false ∧
      (∀ k, (reconnectReset st lrt).base k = []) ∧
      (∀ k, (reconnectReset st lrt).thr k = none) ∧
      (reconnectReset st lrt).bgSet = false ∧
      (reconnectReset st lrt).hist = [] ∧
      (reconnectReset st lrt).state = S.IDLE ∧
      (reconnectReset st lrt).asc2_start = none ∧
      (reconnectReset st lrt).descent_seen = false ∧
      (reconnectReset st lrt).verify_hits = 0 ∧
      (reconnectReset st lrt).rollback_confirm_count = 0 ∧
      (reconnectReset st lrt).last_reconnect_time = some lrt) ∧
    (∀ (st : DState) (inp : FrameInput) (o : Outcome),
      reconnectGrace st inp.frame_time = true →
      (fsmStep st inp).log = (inp.frame_time, o) :: st.log →
      o = Outcome.success) ∧
    (∀ (st : DState) (inp : FrameInput),
      reconnectGrace st inp.frame_time = true →
      (inp.th = true ∨
        ((st.state = S.ASC2 ∨ st.state = S.VERIFY) ∧
          ∀ r, st.last_reconnect_time = some r →
            5 < inp.frame_time - r)) →
      (fsmStep st inp).state = S.IDLE) := by
  refine ⟨?_, ?_, ?_⟩
  · intro st lrt
    exact ⟨rfl, fun k => rfl, fun k => rfl, rfl, rfl, rfl, rfl, rfl, rfl,
      rfl, rfl⟩
  · intro st inp o hg hlog
    rcases fsmStep_shape st inp with h | ⟨_, _, hc⟩
    · exfalso
      rw [hlog] at h
      exact List.cons_ne_self _ _ h
    · rcases hc with hc | hc
      · rw [hlog] at hc
        simpa using hc
      · exfalso
        rw [hc.2.1] at hg
        exact Bool.false_ne_true hg
  · intro st inp hg htrig
    have hfinal : fsmStep st inp =
        idleClear (graceBlock (counterReset
          (fsmChain (descentUpdate st inp) inp) inp) inp) := rfl
    set st1 := descentUpdate st inp with hst1
    set st2 := fsmChain st1 inp with hst2
    set st3 := counterReset st2 inp with hst3
    have hlrt3 : st3.last_reconnect_time = st.last_reconnect_time := by
      rw [hst3, counterReset_lrt, hst2, fsmChain_lrt, hst1,
        descentUpdate_lrt]
    have hg3 : reconnectGrace st3 inp.frame_time = true := by
      rw [reconnectGrace_congr st3 st inp.frame_time hlrt3]
      exact hg
    rcases htrig with hth | ⟨hsv, hsub⟩
    · have htr : graceTrigger st3 inp = true := by
        unfold graceTrigger
        rw [hg3, hth]
        simp
      rw [hfinal, idleClear_state]
      exact graceBlock_idle_of_trigger st3 inp htr
    · obtain ⟨r, hr, _⟩ := reconnectGrace_some st inp.frame_time hg
      have h5 : 5 < inp.frame_time - r := hsub r hr
      have hsv1 : st1.state = S.ASC2 ∨ st1.state = S.VERIFY := by
        rw [hst1, descentUpdate_state]
        exact hsv
      have hst3eq : st3.state = st2.state := counterReset_state st2 inp
      rcases fsmChain_state_sub st1 inp hsv1 with h2 | h2 | h2 <;>
        rw [← hst2] at h2
      · have htr : graceTrigger st3 inp = true := by
          unfold graceTrigger
          rw [hg3]
          have hlrt3r : st3.last_reconnect_time = some r := by
            rw [hlrt3, hr]
          rw [hlrt3r]
          simp [hst3eq, h2, h5]
        rw [hfinal, idleClear_state]
        exact graceBlock_idle_of_trigger st3 inp htr
      · have htr : graceTrigger st3 inp = true := by
          unfold graceTrigger
          rw [hg3]
          have hlrt3r : st3.last_reconnect_time = some r := by
            rw [hlrt3, hr]
          rw [hlrt3r]
          simp [hst3eq, h2, h5]
        rw [hfinal, idleClear_state]
        exact graceBlock_idle_of_trigger st3 inp htr
      · rcases graceBlock_shape st3 inp with ⟨_, _, hs4⟩ | ⟨_, _, hs4, _⟩
        · rw [hfinal, idleClear_state]
          rcases hs4 with hs4 | hs4
          · rw [hs4, hst3eq, h2]
          · exact hs4
        · rw [hfinal, idleClear_state]
          exact hs4

/-- A freshly reconnected run (reconnect at t = 50) that sees the crest
at t = 100. -/
def c9wStB : DState := { initState with last_reconnect_time := some 50 }

/-- A run sitting in ASC2 during the grace window of a reconnect at
t = 0. -/
def c9wStC : DState :=
  { initState with state := S.ASC2, asc2_start := some 2,
                   last_reconnect_time := some 0 }

/-- Witness for C9: the reset really clears the calibration and
returns to IDLE; a crest sighting during the grace window appends a
success row (the second conjunct is the theorem's conclusion at that
emitting frame); and lingering in ASC2 past the 5 s sub-window forces
the frame to end in IDLE. -/
theorem c9_reconnect_reset_and_grace_witness :
    (reconnectReset initState 5).armed = false ∧
    (reconnectReset initState 5).state = S.IDLE ∧
    (reconnectReset initState 5).last_reconnect_time = some 5 ∧
    Outcome.success = Outcome.success ∧
    (fsmStep c9wStC (blankI 10)).state = S.IDLE := by
  obtain ⟨ha, hb, hc⟩ := c9_reconnect_reset_and_grace
  obtain ⟨w1, _, _, _, _, w6, _, _, _, _, w11⟩ := ha initState 5
  refine ⟨w1, w6, w11, ?_, ?_⟩
  · exact hb c9wStB (crestI 100) Outcome.success (by decide) (by decide)
  · refine hc c9wStC (blankI 10) (by decide) (Or.inr ⟨Or.inl rfl, ?_⟩)
    intro r hr
    have h : (some (0 : ℚ) : Option ℚ) = some r := hr
    injection h with h0
    subst h0
    show (5 : ℚ) < 10 - 0
    norm_num

-- ════════ C6: hot classification ════════

/-- C6.  With armed thresholds, the floor region is hot iff the model
is armed and both halves' motion scores exceed their thresholds; the
crest region is hot iff armed and at least one half exceeds; the verify
region is hot iff armed and both halves exceed; and before arming
(armed = false) no region is ever hot, whatever the thresholds. -/
theorem c6_hot_classification :
    ∀ (armed : Bool) (mot : Region → ℚ) (tf : Region → ℚ),
      (bot_hot armed mot (fun k => some (tf k)) = true ↔
        (armed = true ∧ tf Region.bot_L < mot Region.bot_L ∧
         tf Region.bot_R < mot Region.bot_R)) ∧
      (top_hot armed mot (fun k => some (tf k)) = true ↔
        (armed = true ∧ (tf Region.top_high < mot Region.top_high ∨
         tf Region.top_low < mot Region.top_low))) ∧
      (ver_hot armed mot (fun k => some (tf k)) = true ↔
        (armed = true ∧ tf Region.verify_L < mot Region.verify_L ∧
         tf Region.verify_R < mot Region.verify_R)) ∧
      (∀ thr : Region → Option ℚ,
        bot_hot false mot thr = false ∧ top_hot false mot thr = false ∧
        ver_hot false mot thr = false) := by
  intro armed mot tf
  refine ⟨?_, ?_, ?_, ?_⟩
  · simp [bot_hot, gtThr, and_assoc]
  · simp [top_hot, gtThr]
  · simp [ver_hot, gtThr, and_assoc]
  · intro thr
    refine ⟨?_, ?_, ?_⟩ <;> simp [bot_hot, top_hot, ver_hot]

/-- Witness for C6: hot when armed and over threshold; never hot when
not armed. -/
theorem c6_hot_classification_witness :
    bot_hot true (fun _ => (10 : ℚ)) (fun k => some ((fun _ => (5 : ℚ)) k))
      = true ∧
    top_hot false (fun _ => (10 : ℚ)) (fun _ => none) = false := by
  have h := c6_hot_classification true (fun _ => (10 : ℚ))
    (fun _ => (5 : ℚ))
  have h2 := c6_hot_classification false (fun _ => (10 : ℚ))
    (fun _ => (5 : ℚ))
  exact ⟨h.1.mpr ⟨rfl, by norm_num, by norm_num⟩,
    (h2.2.2.2 (fun _ => none)).2.1⟩

-- ════════ C7: quiet frames never leave IDLE ════════

@[simp] theorem calUpdate_state (stdFn : List ℚ → ℚ) (st : DState)
    (mot : Region → ℚ) (rt : ℚ) :
    (calUpdate stdFn st mot rt).state = st.state := by
  unfold calUpdate
  split_ifs <;> rfl

@[simp] theorem calUpdate_log (stdFn : List ℚ → ℚ) (st : DState)
    (mot : Region → ℚ) (rt : ℚ) :
    (calUpdate stdFn st mot rt).log = st.log := by
  unfold calUpdate
  split_ifs <;> rfl

/-- No region's score this frame exceeds the threshold in force on this
frame (the threshold after a possible arming on this very frame, which
is what line 203 reads). -/
def quietFrame (stdFn : List ℚ → ℚ) (st : DState) (inp : RawInput) :
    Bool :=
  regions.all fun k =>
    !(gtThr (inp.mot k)
      ((calUpdate stdFn st inp.mot inp.frame_time).thr k))

/-- No region's score ever exceeds its calibrated threshold along the
run. -/
def quietRun (stdFn : List ℚ → ℚ) : DState → List RawInput → Bool
  | _, [] => true
  | st, inp :: rest =>
      quietFrame stdFn st inp &&
        quietRun stdFn (fullStep stdFn st inp) rest

/-- From IDLE, a frame with no hot region and no crest sighting leaves
the machine in IDLE and the log untouched. -/
theorem fsmStep_idle_cold (st : DState) (inp : FrameInput)
    (hidle : st.state = S.IDLE) (hbh : inp.bh = false)
    (hth : inp.th = false) :
    (fsmStep st inp).state = S.IDLE ∧ (fsmStep st inp).log = st.log := by
  have hfinal : fsmStep st inp =
      idleClear (graceBlock (counterReset
        (fsmChain (descentUpdate st inp) inp) inp) inp) := rfl
  set st1 := descentUpdate st inp with hst1
  have h1s : st1.state = S.IDLE := by
    rw [hst1, descentUpdate_state]
    exact hidle
  have hchain : fsmChain st1 inp = st1 := by
    unfold fsmChain
    rw [if_neg (fun h => Bool.false_ne_true (hbh ▸ h.2.1)),
        if_neg (fun h => absurd (h1s.symm.trans h.1) (by decide)),
        if_neg (fun h => absurd (h1s.symm.trans h.1) (by decide)),
        if_neg (fun h => Bool.false_ne_true (hbh ▸ h.2.1)),
        if_neg (fun h => absurd (h1s.symm.trans h.1) (by decide)),
        if_neg (fun h => absurd (h1s.symm.trans h.1) (by decide)),
        if_neg (fun h => absurd (h1s.symm.trans h.1) (by decide)),
        if_neg (fun h => absurd (h1s.symm.trans h) (by decide))]
  set st3 := counterReset st1 inp with hst3
  have h3s : st3.state = S.IDLE := by
    rw [hst3, counterReset_state]
    exact h1s
  have htrig : ¬ graceTrigger st3 inp = true := by
    unfold graceTrigger
    simp [h3s, hth]
  have hgb : graceBlock st3 inp = st3 :=
    graceBlock_eq_of_not_trigger st3 inp htrig
  constructor
  · rw [hfinal, hchain, ← hst3, hgb, idleClear_state]
    exact h3s
  · rw [hfinal, hchain, ← hst3, hgb, idleClear_log, hst3,
      counterReset_log, hst1, descentUpdate_log]

/-- From IDLE, a quiet frame (no score above the in-force thresholds)
leaves the machine in IDLE and the log untouched. -/
theorem fullStep_idle_quiet (stdFn : List ℚ → ℚ) (st : DState)
    (inp : RawInput) (hidle : st.state = S.IDLE)
    (hq : quietFrame stdFn st inp = true) :
    (fullStep stdFn st inp).state = S.IDLE ∧
    (fullStep stdFn st inp).log = st.log := by
  have hq' : ∀ k, gtThr (inp.mot k)
      ((calUpdate stdFn st inp.mot inp.frame_time).thr k) = false := by
    intro k
    have h := List.all_eq_true.mp hq k (mem_regions k)
    simpa using h
  have hbh : bot_hot (calUpdate stdFn st inp.mot inp.frame_time).armed
      inp.mot (calUpdate stdFn st inp.mot inp.frame_time).thr = false := by
    unfold bot_hot
    rw [hq' Region.bot_L, hq' Region.bot_R]
    simp
  have hth : top_hot (calUpdate stdFn st inp.mot inp.frame_time).armed
      inp.mot (calUpdate stdFn st inp.mot inp.frame_time).thr = false := by
    unfold top_hot
    rw [hq' Region.top_high, hq' Region.top_low]
    simp
  have hXs : ({ calUpdate stdFn st inp.mot inp.frame_time with
      hist := histPush (calUpdate stdFn st inp.mot inp.frame_time).hist
        inp.cy inp.frame_time } : DState).state = S.IDLE := by
    rw [show ({ calUpdate stdFn st inp.mot inp.frame_time with
      hist := histPush (calUpdate stdFn st inp.mot inp.frame_time).hist
        inp.cy inp.frame_time } : DState).state =
      (calUpdate stdFn st inp.mot inp.frame_time).state from rfl,
      calUpdate_state]
    exact hidle
  have hstep := fsmStep_idle_cold
    { calUpdate stdFn st inp.mot inp.frame_time with
        hist := histPush (calUpdate stdFn st inp.mot inp.frame_time).hist
          inp.cy inp.frame_time }
    { frame_time := inp.frame_time
      bh := bot_hot (calUpdate stdFn st inp.mot inp.frame_time).armed
        inp.mot (calUpdate stdFn st inp.mot inp.frame_time).thr
      th := top_hot (calUpdate stdFn st inp.mot inp.frame_time).armed
        inp.mot (calUpdate stdFn st inp.mot inp.frame_time).thr
      vh := ver_hot (calUpdate stdFn st inp.mot inp.frame_time).armed
        inp.mot (calUpdate stdFn st inp.mot inp.frame_time).thr
      bq := bot_quiet inp.mot (calUpdate stdFn st inp.mot inp.frame_time).thr
      v := smooth_velocity (histPush
        (calUpdate stdFn st inp.mot inp.frame_time).hist inp.cy
        inp.frame_time) }
    hXs hbh hth
  refine ⟨hstep.1, ?_⟩
  rw [show (fullStep stdFn st inp).log = _ from congrArg DState.log rfl]
  exact hstep.2.trans (calUpdate_log stdFn st inp.mot inp.frame_time)

/-- C7.  Along any run whose motion scores never exceed the thresholds
in force (before arming every threshold is infinite, so this includes
every pre-arming frame), the state machine never leaves IDLE and the
event log never gains a row. -/
theorem c7_quiet_stays_idle :
    ∀ (stdFn : List ℚ → ℚ) (l : List RawInput) (st : DState),
      st.state = S.IDLE → quietRun stdFn st l = true →
      (runFull stdFn st l).state = S.IDLE ∧
      (runFull stdFn st l).log = st.log := by
  intro stdFn l
  induction l with
  | nil => intro st h _; exact ⟨h, rfl⟩
  | cons inp rest ih =>
      intro st hidle hq
      rw [quietRun, Bool.and_eq_true] at hq
      have hstep := fullStep_idle_quiet stdFn st inp hidle hq.1
      have hrest := ih (fullStep stdFn st inp) hstep.1 hq.2
      refine ⟨hrest.1, hrest.2.trans hstep.2⟩

/-- Two quiet frames over a fresh run. -/
def c7inputs : List RawInput :=
  [⟨1, fun _ => 5, none⟩, ⟨2, fun _ => 5, none⟩]

set_option maxRecDepth 10000 in
/-- Witness for C7 on a concrete two-frame quiet run. -/
theorem c7_quiet_stays_idle_witness :
    (runFull (fun _ => 0) initState c7inputs).state = S.IDLE ∧
    (runFull (fun _ => 0) initState c7inputs).log = initState.log :=
  c7_quiet_stays_idle (fun _ => 0) c7inputs initState rfl (by decide)

-- ════════ C5: arming and thresholds ════════

/-- The armed threshold per region role as a function of the buffer
mean `m` and its population standard deviation `s`: crest uses
`SIGMA_TOP`, verify uses `SIGMA_VERIFY` capped at 60% of the region's
pixel area (the cap is what the original claim omits), floor uses
`SIGMA_BOT` scaled by 1.2. -/
def roleThr (k : Region) (m s : ℚ) : ℚ :=
  match k with
  | Region.top_high => m + SIGMA_TOP * s
  | Region.top_low => m + SIGMA_TOP * s
  | Region.verify_L => min (m + SIGMA_VERIFY * s) (wv * hv * (6/10))
  | Region.verify_R => min (m + SIGMA_VERIFY * s) (wv * hv * (6/10))
  | _ => m + SIGMA_BOT * s * (12/10)

/-- C5 as amended.  (1) Once armed, a further calibration frame never
re-arms or changes a threshold, so arming happens at most once per run;
(2) from the un-armed state, this frame arms exactly when every
region's buffer is full after this frame's appends and the startup
delay has elapsed; (3) at that moment each region's threshold equals
mean + k·stddev of its buffered scores — stddev in the sense of the
nonnegative square root of the population variance — except that the
verify regions' threshold is additionally capped at 60% of their pixel
area; (4) the crest and verify multipliers are smaller than the
floor's effective multiplier. -/
theorem c5_arming_and_thresholds :
    (∀ (stdFn : List ℚ → ℚ) (st : DState) (mot : Region → ℚ) (rt : ℚ),
      st.armed = true →
      (calUpdate stdFn st mot rt).armed = true ∧
      ∀ k, (calUpdate stdFn st mot rt).thr k = st.thr k) ∧
    (∀ (stdFn : List ℚ → ℚ) (st : DState) (mot : Region → ℚ) (rt : ℚ),
      st.armed = false →
      ((calUpdate stdFn st mot rt).armed = true ↔
        (∀ k ∈ regions,
          BASE_FRAMES ≤ ((calUpdate stdFn st mot rt).base k).length) ∧
        ARM_DELAY ≤ rt)) ∧
    (∀ (stdFn : List ℚ → ℚ) (st : DState) (mot : Region → ℚ) (rt : ℚ),
      st.armed = false → (calUpdate stdFn st mot rt).armed = true →
      ∀ (k : Region) (s : ℚ), 0 ≤ s →
        s ^ 2 = popVar ((calUpdate stdFn st mot rt).base k) →
        0 ≤ stdFn ((calUpdate stdFn st mot rt).base k) →
        (stdFn ((calUpdate stdFn st mot rt).base k)) ^ 2 =
          popVar ((calUpdate stdFn st mot rt).base k) →
        (calUpdate stdFn st mot rt).thr k =
          some (roleThr k
            (mean ((calUpdate stdFn st mot rt).base k)) s)) ∧
    (SIGMA_TOP < SIGMA_BOT * (12/10) ∧
     SIGMA_VERIFY < SIGMA_BOT * (12/10)) := by
  refine ⟨?_, ?_, ?_, ?_⟩
  · intro stdFn st mot rt harmed
    unfold calUpdate
    rw [if_neg (fun h => by rw [harmed] at h; exact absurd h.1 (by decide))]
    exact ⟨harmed, fun k => rfl⟩
  · intro stdFn st mot rt harmed
    unfold calUpdate
    by_cases hcond : st.armed = false ∧
        (∀ k ∈ regions, BASE_FRAMES ≤ (baseUpd st mot k).length) ∧
        ARM_DELAY ≤ rt
    · rw [if_pos hcond]
      constructor
      · intro _
        exact ⟨fun k hk => hcond.2.1 k hk, hcond.2.2⟩
      · intro _
        rfl
    · rw [if_neg hcond]
      constructor
      · intro h
        have h' : st.armed = true := h
        rw [harmed] at h'
        exact absurd h' (by decide)
      · intro hx
        exact (hcond ⟨harmed, fun k hk => hx.1 k hk, hx.2⟩).elim
  · intro stdFn st mot rt harmed harmd k s hs0 hs2 hstd0 hstd2
    by_cases hcond : st.armed = false ∧
        (∀ k ∈ regions, BASE_FRAMES ≤ (baseUpd st mot k).length) ∧
        ARM_DELAY ≤ rt
    · have hb : (calUpdate stdFn st mot rt).base = baseUpd st mot := by
        unfold calUpdate
        rw [if_pos hcond]
      have hthr : (calUpdate stdFn st mot rt).thr =
          armThr stdFn (baseUpd st mot) := by
        unfold calUpdate
        rw [if_pos hcond]
      rw [hb] at hs2 hstd0 hstd2
      have hse : stdFn (baseUpd st mot k) = s := by
        have h1 : stdFn (baseUpd st mot k) ≤ s := by
          nlinarith [hs2, hstd2, hs0, hstd0]
        have h2 : s ≤ stdFn (baseUpd st mot k) := by
          nlinarith [hs2, hstd2, hs0, hstd0]
        exact le_antisymm h1 h2
      rw [hthr, hb]
      cases k <;> simp [armThr, roleThr, hse]
    · exfalso
      have h' : (calUpdate stdFn st mot rt).armed = st.armed := by
        unfold calUpdate
        rw [if_neg hcond]
      rw [h', harmed] at harmd
      exact absurd harmd (by decide)
  · constructor
    · show (8 : ℚ) < 10 * (12/10)
      norm_num
    · show (6 : ℚ) < 10 * (12/10)
      norm_num

/-- A run one frame short of full buffers, with every score at 400. -/
def c5cexSt : DState :=
  { initState with bgSet := true,
                   base := fun _ => List.replicate 59 400 }

set_option maxRecDepth 100000 in
/-- Counterexample to C5 as stated: with constant buffered scores of
400 (mean 400, population standard deviation 0) the claim demands a
verify threshold of mean + SIGMA_VERIFY·stddev = 400, but the code
(line 198) caps the verify threshold at `wv*hv*0.6 = 324`. -/
theorem c5_verify_cap_cex :
    (calUpdate (fun _ => 0) c5cexSt (fun _ => 400) 3).armed = true ∧
    (0 : ℚ) ^ 2 =
      popVar ((calUpdate (fun _ => 0) c5cexSt (fun _ => 400) 3).base
        Region.verify_L) ∧
    mean ((calUpdate (fun _ => 0) c5cexSt (fun _ => 400) 3).base
        Region.verify_L) + SIGMA_VERIFY * 0 = 400 ∧
    (calUpdate (fun _ => 0) c5cexSt (fun _ => 400) 3).thr
        Region.verify_L = some 324 ∧
    (324 : ℚ) ≠ 400 := by
  decide

/-- A run one frame short of full buffers whose scores will have mean 1
and population standard deviation 1 once this frame's score (2) is
appended. -/
def c5wSt : DState :=
  { initState with bgSet := true,
                   base := fun _ => List.replicate 30 0 ++
                     List.replicate 29 2 }

set_option maxRecDepth 100000 in
/-- Witness for C5's amended claim: the frame that fills the buffers at
t = 3 arms the model, and the crest threshold equals
mean + SIGMA_TOP·stddev with stddev = 1 the population standard
deviation of the buffer. -/
theorem c5_arming_and_thresholds_witness :
    (calUpdate (fun _ => 1) c5wSt (fun _ => 2) 3).armed = true ∧
    (calUpdate (fun _ => 1) c5wSt (fun _ => 2) 3).thr Region.top_high =
      some (roleThr Region.top_high
        (mean ((calUpdate (fun _ => 1) c5wSt (fun _ => 2) 3).base
          Region.top_high)) 1) := by
  have harm : (calUpdate (fun _ => 1) c5wSt (fun _ => 2) 3).armed =
      true := by decide
  exact ⟨harm, c5_arming_and_thresholds.2.2.1 (fun _ => 1) c5wSt
    (fun _ => 2) 3 rfl harm Region.top_high 1 (by decide) (by decide)
    (by decide) (by decide)⟩
